import Mathlib

/-!
Shallow embedding of the sketch-classification core of YourDrawingsSuck.AI
(`src/app.js`, the most advanced variant of the application: the one with the
meaningful-drawing gate, per-label prototypes and weighted voting).

JavaScript numbers are idealised as real numbers; machine floating point is
not modelled.  Pixel vectors are `List ℝ`, strokes are lists of 2-D points in
canvas coordinates.  The `localStorage` boundary is modelled by a small JSON
value type (`JVal`) together with the three observable outcomes of
`localStorage.getItem` + `JSON.parse`: absent, corrupt (parse throws), or a
parsed value.  React state updates (`setGuess`, `setConfidence`,
`setStatusMessage`, `setDataset`) are modelled as field updates of an explicit
`AppState` record.
-/

noncomputable section

open Classical

/-- A 2-D point of a stroke polyline, in canvas coordinates. -/
structure Pt where
  x : ℝ
  y : ℝ

/-- A stroke: the ordered points sampled while the pointer is down. -/
abbrev Stroke := List Pt

/-- Result bundle of `extractShapeFeatures` (src/app.js lines 439-531).
`lengthNorm` and `straightness` are always 0 here; the stroke bundle
overrides them in `combineFeatures`. -/
structure ShapeFeatures where
  fillRatio : ℝ
  aspectRatio : ℝ
  compactness : ℝ
  symmetryX : ℝ
  symmetryY : ℝ
  edgeDensity : ℝ
  lengthNorm : ℝ
  straightness : ℝ

/-- Result bundle of `extractStrokeFeatures` (src/app.js lines 533-566). -/
structure StrokeFeatures where
  lengthNorm : ℝ
  straightness : ℝ
  strokeCount : ℝ

/-- The merged feature bundle `{...shape, ...stroke}` built by
`combineFeatures` (src/app.js lines 568-573): the stroke bundle wins on
`lengthNorm` and `straightness` and contributes `strokeCount`. -/
structure FeatureVec where
  fillRatio : ℝ
  aspectRatio : ℝ
  compactness : ℝ
  symmetryX : ℝ
  symmetryY : ℝ
  edgeDensity : ℝ
  lengthNorm : ℝ
  straightness : ℝ
  strokeCount : ℝ

/-- Reading `vector[y * GRID_SIZE + x]` for the 16×16 grid; an index outside
the list reads as 0 (such reads never happen on the in-scope length-256
vectors, where every box cell is a valid index). -/
def cellAt (vector : List ℝ) (x y : ℤ) : ℝ :=
  if 0 ≤ y * 16 + x then vector.getD (y * 16 + x).toNat 0 else 0

/-- Inclusive integer range `a..b` of a JS `for` loop. -/
def intRange (a b : ℤ) : List ℤ :=
  (List.range (b + 1 - a).toNat).map (fun k => a + k)

/-- `extractShapeFeatures(vector)` from src/app.js lines 439-531: threshold
the grid at 0.2, compute bounding-box statistics of the active cells. -/
def extractShapeFeatures (vector : List ℝ) : ShapeFeatures :=
  let threshold : ℝ := 0.2
  let active : List ℕ :=
    (List.range vector.length).filter (fun i => decide (threshold < vector.getD i 0))
  let ink : ℝ := vector.sum
  if active = [] then ⟨0, 1, 0, 1, 1, 0, 0, 0⟩
  else
    let xs : List ℤ := active.map (fun i => (i : ℤ) % 16)
    let ys : List ℤ := active.map (fun i => (i : ℤ) / 16)
    let minX : ℤ := xs.foldl min 16
    let minY : ℤ := ys.foldl min 16
    let maxX : ℤ := xs.foldl max 0
    let maxY : ℤ := ys.foldl max 0
    let width : ℤ := maxX - minX + 1
    let height : ℤ := maxY - minY + 1
    let boxArea : ℤ := width * height
    let cells : List (ℤ × ℤ) :=
      (intRange minY maxY).flatMap (fun y => (intRange minX maxX).map (fun x => (x, y)))
    let onCells : List (ℤ × ℤ) :=
      cells.filter (fun c => decide (threshold < cellAt vector c.1 c.2))
    let isEdge : ℤ × ℤ → Bool := fun c =>
      [((c.1 - 1 : ℤ), c.2), (c.1 + 1, c.2), (c.1, c.2 - 1), (c.1, c.2 + 1)].any
        (fun nb =>
          if nb.1 < minX ∨ nb.2 < minY ∨ maxX < nb.1 ∨ maxY < nb.2 then true
          else decide (cellAt vector nb.1 nb.2 ≤ threshold))
    let edgeCount : ℕ := onCells.countP isEdge
    let symmetryChecksX : ℕ := onCells.length
    let symmetryChecksY : ℕ := onCells.length
    let symmetryMatchesX : ℕ :=
      onCells.countP (fun c => decide (threshold < cellAt vector (maxX - (c.1 - minX)) c.2))
    let symmetryMatchesY : ℕ :=
      onCells.countP (fun c => decide (threshold < cellAt vector c.1 (maxY - (c.2 - minY))))
    { fillRatio := ink / (16 * 16)
      aspectRatio := (width : ℝ) / max (height : ℝ) 1
      compactness := (active.length : ℝ) / max (boxArea : ℝ) 1
      symmetryX := (symmetryMatchesX : ℝ) / max (symmetryChecksX : ℝ) 1
      symmetryY := (symmetryMatchesY : ℝ) / max (symmetryChecksY : ℝ) 1
      edgeDensity := (edgeCount : ℝ) / max (active.length : ℝ) 1
      lengthNorm := 0
      straightness := 0 }

/-- Polyline length of a stroke: sum of consecutive segment lengths. -/
def strokeLength (stroke : Stroke) : ℝ :=
  ((stroke.zip stroke.tail).map
    (fun p => Real.sqrt ((p.2.x - p.1.x) ^ 2 + (p.2.y - p.1.y) ^ 2))).sum

/-- Per-stroke contribution `(length, straightness · length)` of the loop body
of `extractStrokeFeatures`; strokes with fewer than 2 points are skipped. -/
def strokeContrib (stroke : Stroke) : ℝ × ℝ :=
  if stroke.length < 2 then (0, 0)
  else
    let len := strokeLength stroke
    let dx := (stroke.getLastD ⟨0, 0⟩).x - (stroke.headD ⟨0, 0⟩).x
    let dy := (stroke.getLastD ⟨0, 0⟩).y - (stroke.headD ⟨0, 0⟩).y
    let directDistance := Real.sqrt (dx ^ 2 + dy ^ 2)
    (len, directDistance / max len 1 * len)

/-- `extractStrokeFeatures(strokes)` from src/app.js lines 533-566. -/
def extractStrokeFeatures (strokes : List Stroke) : StrokeFeatures :=
  if strokes = [] then ⟨0, 0, 0⟩
  else
    let diagonal : ℝ := Real.sqrt (500 * 500 + 500 * 500)
    let totalLength : ℝ := (strokes.map (fun s => (strokeContrib s).1)).sum
    let weightedStraightness : ℝ := (strokes.map (fun s => (strokeContrib s).2)).sum
    ⟨min (totalLength / diagonal) 1.5,
     weightedStraightness / max totalLength 1,
     (strokes.length : ℝ)⟩

/-- `combineFeatures(vector, strokes)` from src/app.js lines 568-573: spread
of the shape bundle then the stroke bundle. -/
def combineFeatures (vector : List ℝ) (strokes : List Stroke) : FeatureVec :=
  let sh := extractShapeFeatures vector
  let st := extractStrokeFeatures strokes
  ⟨sh.fillRatio, sh.aspectRatio, sh.compactness, sh.symmetryX, sh.symmetryY,
   sh.edgeDensity, st.lengthNorm, st.straightness, st.strokeCount⟩

/-- `featureDistance(a, b)` from src/app.js lines 575-599: square root of the
weighted sum of squared per-feature differences, with the aspect ratio
log-transformed and the stroke count capped at 8 and normalised.  The
source's `a.strokeCount || 0` guard only replaces a missing field by 0; the
field is always present here. -/
def featureDistance (a b : FeatureVec) : ℝ :=
  let aspectA := Real.log (a.aspectRatio + 1e-6)
  let aspectB := Real.log (b.aspectRatio + 1e-6)
  let strokeCountA := min a.strokeCount 8 / 8
  let strokeCountB := min b.strokeCount 8 / 8
  Real.sqrt
    (1.4 * (a.fillRatio - b.fillRatio) ^ 2 +
     1.1 * (aspectA - aspectB) ^ 2 +
     1.3 * (a.compactness - b.compactness) ^ 2 +
     0.8 * (a.symmetryX - b.symmetryX) ^ 2 +
     0.8 * (a.symmetryY - b.symmetryY) ^ 2 +
     1.1 * (a.edgeDensity - b.edgeDensity) ^ 2 +
     1.3 * (a.lengthNorm - b.lengthNorm) ^ 2 +
     1.4 * (a.straightness - b.straightness) ^ 2 +
     0.7 * (strokeCountA - strokeCountB) ^ 2)

/-- Sum of squared coordinate differences, the radicand of `distance`. -/
def sqDiffSum (a b : List ℝ) : ℝ :=
  ((a.zip b).map (fun p => (p.1 - p.2) ^ 2)).sum

/-- `distance(a, b)` from src/app.js lines 605-612: Euclidean distance of two
equal-length vectors (the source loops over `a.length`; the zip formulation
agrees on the in-scope equal-length inputs). -/
def distance (a b : List ℝ) : ℝ :=
  Real.sqrt (sqDiffSum a b)

/-- Dot product accumulated by `cosineDistance`. -/
def dotSum (a b : List ℝ) : ℝ :=
  ((a.zip b).map (fun p => p.1 * p.2)).sum

/-- Sum of squares of a vector, the `normA`/`normB` accumulators of
`cosineDistance`. -/
def normSq (a : List ℝ) : ℝ :=
  (a.map (fun v => v ^ 2)).sum

/-- `cosineDistance(a, b)` from src/app.js lines 614-628: `1 - dot/denom`
with `denom = √normA · √normB`, and 1 when the denominator is zero. -/
def cosineDistance (a b : List ℝ) : ℝ :=
  let denom := Real.sqrt (normSq a) * Real.sqrt (normSq b)
  if denom = 0 then 1 else 1 - dotSum a b / denom

/-- A training sample as stored in the dataset: the object
`{ label, vector, features, ts }` built by `saveDrawing` (src/app.js line
885).  `features` is optional because entries loaded from older persisted
data may lack it, which is why the source guards every access with
`item.features || combineFeatures(item.vector, [])`. -/
structure Sample where
  label : String
  vector : List ℝ
  features : Option FeatureVec
  ts : ℤ

/-- The expression `item.features || combineFeatures(item.vector, [])` used
at src/app.js lines 653 and 822. -/
def sampleFeatures (s : Sample) : FeatureVec :=
  s.features.getD (combineFeatures s.vector [])

/-- Accumulator bucket of `buildPrototypes` (src/app.js lines 634-649):
per-label running count, element-wise vector sum and field-wise feature
sum. -/
structure Bucket where
  count : ℕ
  vectorSum : List ℝ
  featureSum : FeatureVec

/-- The freshly initialised bucket: zero count, a 256-entry zero vector sum
(`new Array(GRID_SIZE * GRID_SIZE).fill(0)`), all feature sums zero. -/
def emptyBucket : Bucket :=
  ⟨0, List.replicate 256 0, ⟨0, 0, 0, 0, 0, 0, 0, 0, 0⟩⟩

/-- The loop `for (i < item.vector.length) bucket.vectorSum[i] += item.vector[i]`
(src/app.js lines 656-658): add `b` into `a` pointwise, leaving positions of
`a` beyond `b.length` unchanged. -/
def addVec (a b : List ℝ) : List ℝ :=
  a.zipWith (· + ·) b ++ a.drop b.length

/-- Field-wise sum of two feature bundles, the loop
`featureSum[key] += features[key] || 0` (src/app.js lines 660-662). -/
def featAdd (a b : FeatureVec) : FeatureVec :=
  ⟨a.fillRatio + b.fillRatio, a.aspectRatio + b.aspectRatio,
   a.compactness + b.compactness, a.symmetryX + b.symmetryX,
   a.symmetryY + b.symmetryY, a.edgeDensity + b.edgeDensity,
   a.lengthNorm + b.lengthNorm, a.straightness + b.straightness,
   a.strokeCount + b.strokeCount⟩

/-- Folding one sample into its label's bucket (src/app.js lines 652-663). -/
def addSample (b : Bucket) (s : Sample) : Bucket :=
  ⟨b.count + 1, addVec b.vectorSum s.vector, featAdd b.featureSum (sampleFeatures s)⟩

/-- One iteration of the grouping loop of `buildPrototypes`: the insertion-
ordered `Map` `byLabel` is modelled as an association list; an existing
entry is updated in place, a new label is appended at the end. -/
def byLabelStep (acc : List (String × Bucket)) (s : Sample) : List (String × Bucket) :=
  if acc.any (fun p => p.1 == s.label) then
    acc.map (fun p => if p.1 == s.label then (p.1, addSample p.2 s) else p)
  else
    acc ++ [(s.label, addSample emptyBucket s)]

/-- The grouping pass of `buildPrototypes` over the whole dataset. -/
def byLabelFold (dataset : List Sample) : List (String × Bucket) :=
  dataset.foldl byLabelStep []

/-- A per-label prototype `{ label, count, vector, features }`
(src/app.js lines 665-672). -/
structure Prototype where
  label : String
  count : ℕ
  vector : List ℝ
  features : FeatureVec

/-- Field-wise division of a feature bundle by the sample count. -/
def featDiv (f : FeatureVec) (c : ℝ) : FeatureVec :=
  ⟨f.fillRatio / c, f.aspectRatio / c, f.compactness / c, f.symmetryX / c,
   f.symmetryY / c, f.edgeDensity / c, f.lengthNorm / c, f.straightness / c,
   f.strokeCount / c⟩

/-- Turning a finished bucket into a prototype: element-wise and field-wise
means (src/app.js lines 665-672). -/
def mkProto (p : String × Bucket) : Prototype :=
  ⟨p.1, p.2.count, p.2.vectorSum.map (fun v => v / (p.2.count : ℝ)),
   featDiv p.2.featureSum (p.2.count : ℝ)⟩

/-- `buildPrototypes(dataset)` from src/app.js lines 630-673. -/
def buildPrototypes (dataset : List Sample) : List Prototype :=
  (byLabelFold dataset).map mkProto

/-- The record returned by `getDrawingStats` (src/app.js lines 787-800). -/
structure DrawingStats where
  totalInk : ℝ
  activePixels : ℕ
  drawnStrokeCount : ℕ
  hasMeaningfulDrawing : Prop

/-- `getDrawingStats()` from src/app.js lines 787-800, parametrised by the
rasterised ink vector and the live stroke list. -/
def getDrawingStats (vec : List ℝ) (strokes : List Stroke) : DrawingStats :=
  let totalInk := vec.sum
  let activePixels := vec.countP (fun v => decide (0.18 < v))
  let drawnStrokeCount := (strokes.filter (fun s => decide (1 < s.length))).length
  ⟨totalInk, activePixels, drawnStrokeCount,
   5 < totalInk ∧ 8 < activePixels ∧ 0 < drawnStrokeCount⟩

/-- The meaningful-drawing gate consulted by `guessDrawing` and
`saveDrawing`. -/
def hasMeaningful (vec : List ℝ) (strokes : List Stroke) : Prop :=
  (getDrawingStats vec strokes).hasMeaningfulDrawing

/-- Per-sample blended distance (src/app.js lines 821-828):
`pixelDist * 1.9 + angularDist * 1.4 + shapeDist * 1.7` paired with the
sample's label. -/
def scoreExample (vec : List ℝ) (strokes : List Stroke) (item : Sample) : String × ℝ :=
  let itemFeatures := sampleFeatures item
  let pixelDist := distance vec item.vector / Real.sqrt (vec.length : ℝ)
  let angularDist := cosineDistance vec item.vector
  let shapeDist := featureDistance (combineFeatures vec strokes) itemFeatures
  (item.label, pixelDist * 1.9 + angularDist * 1.4 + shapeDist * 1.7)

/-- `scoredExamples` (src/app.js lines 821-828). -/
def scoredExamples (dataset : List Sample) (vec : List ℝ) (strokes : List Stroke) :
    List (String × ℝ) :=
  dataset.map (scoreExample vec strokes)

/-- Per-prototype blended distance (src/app.js lines 830-837): slightly lower
weights `1.6/1.2/1.5` minus the evidence bonus `min(count, 12) / 120`. -/
def scoreProto (vec : List ℝ) (strokes : List Stroke) (proto : Prototype) : String × ℝ :=
  let pixelDist := distance vec proto.vector / Real.sqrt (vec.length : ℝ)
  let angularDist := cosineDistance vec proto.vector
  let shapeDist := featureDistance (combineFeatures vec strokes) proto.features
  let sampleBonus := min (proto.count : ℝ) 12 / 120
  (proto.label, pixelDist * 1.6 + angularDist * 1.2 + shapeDist * 1.5 - sampleBonus)

/-- `scoredPrototypes` (src/app.js lines 830-837). -/
def scoredPrototypes (dataset : List Sample) (vec : List ℝ) (strokes : List Stroke) :
    List (String × ℝ) :=
  (buildPrototypes dataset).map (scoreProto vec strokes)

/-- The nine nearest samples by blended distance (src/app.js line 840):
`[...scoredExamples].sort((a, b) => a.dist - b.dist).slice(0, 9)`; JS sort is
stable, as is `mergeSort`. -/
def nearestNine (dataset : List Sample) (vec : List ℝ) (strokes : List Stroke) :
    List (String × ℝ) :=
  ((scoredExamples dataset vec strokes).mergeSort (fun a b => decide (a.2 ≤ b.2))).take 9

/-- `votes.set(label, (votes.get(label) || 0) + weight)` on the insertion-
ordered `Map` of vote tallies, modelled as an association list. -/
def bumpVote (votes : List (String × ℝ)) (l : String) (w : ℝ) : List (String × ℝ) :=
  if votes.any (fun p => p.1 == l) then
    votes.map (fun p => if p.1 == l then (p.1, p.2 + w) else p)
  else
    votes ++ [(l, w)]

/-- The two voting loops of `guessDrawing` (src/app.js lines 839-850): each
of the nine nearest samples votes `1 / max(dist, 0.05)`, then every
prototype votes `0.9 / max(dist, 0.05)`. -/
def votesOf (dataset : List Sample) (vec : List ℝ) (strokes : List Stroke) :
    List (String × ℝ) :=
  (scoredPrototypes dataset vec strokes).foldl
    (fun vs p => bumpVote vs p.1 (0.9 / max p.2 0.05))
    ((nearestNine dataset vec strokes).foldl
      (fun vs n => bumpVote vs n.1 (1 / max n.2 0.05)) [])

/-- `ranked` (src/app.js line 852): vote entries sorted by tally descending
(`(a, b) => b[1] - a[1]`, stable). -/
def rankedOf (dataset : List Sample) (vec : List ℝ) (strokes : List Stroke) :
    List (String × ℝ) :=
  (votesOf dataset vec strokes).mergeSort (fun a b => decide (b.2 ≤ a.2))

/-- `bestLabel` with its `"unknown"` default (src/app.js line 853). -/
def bestLabelOf (dataset : List Sample) (vec : List ℝ) (strokes : List Stroke) : String :=
  ((rankedOf dataset vec strokes).head?.map Prod.fst).getD "unknown"

/-- `bestScore` with its `0` default (src/app.js line 853). -/
def bestScoreOf (dataset : List Sample) (vec : List ℝ) (strokes : List Stroke) : ℝ :=
  ((rankedOf dataset vec strokes).head?.map Prod.snd).getD 0

/-- `secondScore = ranked[1]?.[1] || 0` (src/app.js line 854). -/
def secondScoreOf (dataset : List Sample) (vec : List ℝ) (strokes : List Stroke) : ℝ :=
  (((rankedOf dataset vec strokes)[1]?).map Prod.snd).getD 0

/-- `voteTotal` (src/app.js line 855): sum of all tallies of `ranked`. -/
def voteTotalOf (dataset : List Sample) (vec : List ℝ) (strokes : List Stroke) : ℝ :=
  ((rankedOf dataset vec strokes).map Prod.snd).sum

/-- `margin = bestScore - secondScore` (src/app.js line 856). -/
def marginOf (dataset : List Sample) (vec : List ℝ) (strokes : List Stroke) : ℝ :=
  bestScoreOf dataset vec strokes - secondScoreOf dataset vec strokes

/-- `certainty = voteTotal > 0 ? bestScore / voteTotal : 0`
(src/app.js line 857). -/
def certaintyOf (dataset : List Sample) (vec : List ℝ) (strokes : List Stroke) : ℝ :=
  if 0 < voteTotalOf dataset vec strokes then
    bestScoreOf dataset vec strokes / voteTotalOf dataset vec strokes
  else 0

/-- `prototypeWeight = min(prototypes.length / 10, 1)` (src/app.js line 858). -/
def prototypeWeightOf (dataset : List Sample) : ℝ :=
  min (((buildPrototypes dataset).length : ℝ) / 10) 1

/-- JavaScript `Math.round`: half-integers round toward positive infinity. -/
def jsRound (x : ℝ) : ℤ :=
  ⌊x + 1 / 2⌋

/-- `conf = Math.max(1, Math.min(99, Math.round((certainty * 0.65 +
margin * 0.25 + prototypeWeight * 0.1) * 100)))` (src/app.js lines 859-862). -/
def confOf (dataset : List Sample) (vec : List ℝ) (strokes : List Stroke) : ℤ :=
  max 1 (min 99 (jsRound
    ((certaintyOf dataset vec strokes * 0.65 +
      marginOf dataset vec strokes * 0.25 +
      prototypeWeightOf dataset * 0.1) * 100)))

/-- `lowConfidence = conf < 60 || margin < 0.12` (src/app.js line 863). -/
def lowConfidenceOf (dataset : List Sample) (vec : List ℝ) (strokes : List Stroke) : Prop :=
  confOf dataset vec strokes < 60 ∨ marginOf dataset vec strokes < 0.12

/-- What `guessDrawing` pushes to the UI: the guess label, the confidence
percentage and the advisory status message. -/
structure GuessOutput where
  guess : String
  confidence : ℤ
  statusMessage : String

/-- `guessDrawing()` from src/app.js lines 802-868, parametrised by the
rasterised ink vector and strokes of the current attempt.  The source
returns early when the gate rejects, then when the dataset is empty;
otherwise it emits the voted label (forced to "unknown" on low
confidence). -/
def guessDrawingResult (dataset : List Sample) (vec : List ℝ) (strokes : List Stroke) :
    GuessOutput :=
  if hasMeaningful vec strokes then
    if dataset = [] then
      ⟨"Need training data first", 0, "Train me with a few drawings before guessing."⟩
    else
      ⟨if lowConfidenceOf dataset vec strokes then "unknown"
        else bestLabelOf dataset vec strokes,
       confOf dataset vec strokes,
       if lowConfidenceOf dataset vec strokes then
         "Not confident enough to guess yet — try cleaner strokes."
       else ""⟩
  else
    ⟨"unknown", 0, "Draw something first — erased/blank canvas cannot be guessed."⟩

/-- The React component state touched by `guessDrawing` and `saveDrawing`:
the in-memory dataset, the persisted copy written by `saveDataset`, and the
displayed guess/confidence/status/prompt. -/
structure AppState where
  dataset : List Sample
  store : List Sample
  guess : String
  confidence : ℤ
  statusMessage : String
  prompt : String

/-- Running `guessDrawing` as a state transition: the source only calls
`setGuess`, `setConfidence` and `setStatusMessage` — never `setDataset` or
`saveDataset`. -/
def runGuessDrawing (st : AppState) (vec : List ℝ) (strokes : List Stroke) : AppState :=
  let r := guessDrawingResult st.dataset vec strokes
  { st with guess := r.guess, confidence := r.confidence, statusMessage := r.statusMessage }

/-- JavaScript `list.slice(-n)`: the last `n` elements (the whole list when
it is shorter than `n`). -/
def jsSliceLast (n : ℕ) (l : List Sample) : List Sample :=
  l.drop (l.length - n)

/-- The dataset update of `saveDrawing` (src/app.js line 885):
`[...dataset, sample].slice(-2000)`. -/
def appendSample (dataset : List Sample) (s : Sample) : List Sample :=
  jsSliceLast 2000 (dataset ++ [s])

/-- A parsed JSON value, the possible output of `JSON.parse` on the
persisted store. -/
inductive JVal where
  | jnull : JVal
  | jbool (b : Bool) : JVal
  | jnum (q : ℚ) : JVal
  | jstr (s : String) : JVal
  | jarr (items : List JVal) : JVal
  | jobj (fields : List (String × JVal)) : JVal

/-- The three observable outcomes of `localStorage.getItem(STORAGE_KEY)`
followed by `JSON.parse`: no (or empty) stored string, a stored string on
which `JSON.parse` throws, or a parsed value. -/
inductive RawStore where
  | absent : RawStore
  | corrupt : RawStore
  | value (v : JVal) : RawStore

/-- JavaScript truthiness of a parsed JSON value (the `item &&` guard). -/
def truthy : JVal → Bool
  | .jnull => false
  | .jbool b => b
  | .jnum q => decide (q ≠ 0)
  | .jstr s => decide (s ≠ "")
  | .jarr _ => true
  | .jobj _ => true

/-- Property access `v[key]`: `none` models `undefined` (any access on a
non-object value used by `loadDataset` yields `undefined`). -/
def getField : JVal → String → Option JVal
  | .jobj fields, key => (fields.find? (fun p => p.1 == key)).map Prod.snd
  | _, _ => none

/-- The filter predicate of `loadDataset` (src/app.js lines 427-433):
`item && typeof item.label === "string" && Array.isArray(item.vector) &&
item.vector.length === GRID_SIZE * GRID_SIZE`. -/
def itemPasses (v : JVal) : Bool :=
  truthy v &&
    (match getField v "label" with
      | some (.jstr _) => true
      | _ => false) &&
    (match getField v "vector" with
      | some (.jarr xs) => decide (xs.length = 256)
      | _ => false)

/-- `loadDataset()` from src/app.js lines 421-437: absent or unparsable
stores and non-array parses yield `[]`; an array is filtered by the
structural check. -/
def loadDataset : RawStore → List JVal
  | .absent => []
  | .corrupt => []
  | .value v =>
    match v with
    | .jarr items => items.filter itemPasses
    | _ => []

/-- Written from the spec wording of the structural check actually enforced
by the code: the entry has a string `label` field and a `vector` field that
is an array with exactly 256 entries. -/
def specCheckAmended (v : JVal) : Prop :=
  (∃ s, getField v "label" = some (.jstr s)) ∧
    (∃ xs, getField v "vector" = some (.jarr xs) ∧ xs.length = 256)

/-- Written from the claim wording: additionally every entry of the vector
must be numeric. -/
def specCheckNumeric (v : JVal) : Prop :=
  (∃ s, getField v "label" = some (.jstr s)) ∧
    (∃ xs, getField v "vector" = some (.jarr xs) ∧ xs.length = 256 ∧
      ∀ e ∈ xs, ∃ q, e = JVal.jnum q)

/-- The clamp used by the spec's confidence formula. -/
def clampR (x lo hi : ℝ) : ℝ :=
  max lo (min x hi)

/-- The all-zero 16×16 ink grid. -/
def blankGrid : List ℝ :=
  List.replicate 256 0

/-- A grid with total ink exactly 6 spread over 9 active cells. -/
def inkGrid6 : List ℝ :=
  List.replicate 9 (2 / 3) ++ List.replicate 247 0

/-- A three-point stroke. -/
def stroke3 : Stroke :=
  [⟨0, 0⟩, ⟨3, 4⟩, ⟨6, 8⟩]

end

open Classical

theorem countP_replicate_eq {α : Type} (p : α → Bool) (a : α) (n : ℕ) :
    (List.replicate n a).countP p = if p a then n else 0 := by
  induction n with
  | zero => simp
  | succ k ih =>
    rw [List.replicate_succ, List.countP_cons, ih]
    by_cases h : p a <;> simp [h]

theorem sqDiffSum_self (a : List ℝ) : sqDiffSum a a = 0 := by
  induction a with
  | nil => simp [sqDiffSum]
  | cons x t ih => simpa [sqDiffSum] using ih

theorem distance_self (a : List ℝ) : distance a a = 0 := by
  rw [distance, sqDiffSum_self, Real.sqrt_zero]

theorem dotSum_self (a : List ℝ) : dotSum a a = normSq a := by
  induction a with
  | nil => simp [dotSum, normSq]
  | cons x t ih => simp [dotSum, normSq, pow_two] at ih ⊢; linarith

theorem normSq_nonneg (a : List ℝ) : 0 ≤ normSq a := by
  refine List.sum_nonneg ?_
  intro x hx
  obtain ⟨y, _, rfl⟩ := List.mem_map.mp hx
  positivity

theorem cosineDistance_self (a : List ℝ) (h : normSq a ≠ 0) :
    cosineDistance a a = 0 := by
  have hd : Real.sqrt (normSq a) * Real.sqrt (normSq a) = normSq a :=
    Real.mul_self_sqrt (normSq_nonneg a)
  rw [cosineDistance]
  simp only [hd]
  rw [if_neg h, dotSum_self, div_self h]
  ring

theorem featureDistance_self (f : FeatureVec) : featureDistance f f = 0 := by
  simp [featureDistance]

theorem blank_not_meaningful : ¬ hasMeaningful blankGrid [] := by
  rintro ⟨h5, -, -⟩
  rw [blankGrid] at h5
  have : (List.replicate 256 (0 : ℝ)).sum = 0 := by
    rw [List.sum_replicate]; simp
  rw [this] at h5
  norm_num at h5

theorem inkGrid6_sum : inkGrid6.sum = 6 := by
  rw [inkGrid6, List.sum_append, List.sum_replicate, List.sum_replicate]
  push_cast [nsmul_eq_mul]
  norm_num

theorem inkGrid6_active : inkGrid6.countP (fun v => decide (0.18 < v)) = 9 := by
  rw [inkGrid6, List.countP_append, countP_replicate_eq, countP_replicate_eq]
  norm_num

theorem inkGrid6_meaningful : hasMeaningful inkGrid6 [stroke3] := by
  refine ⟨?_, ?_, ?_⟩
  · rw [inkGrid6_sum]; norm_num
  · rw [inkGrid6_active]; norm_num
  · simp [stroke3]

/-- C3: the meaningful-drawing gate accepts exactly when totalInk > 5,
activePixels (cells with value above 0.18) > 8 and at least one stroke has
two or more points; the all-zero grid with no strokes is rejected, and a
grid with totalInk = 6 and 9 active cells together with one 3-point stroke
is accepted. -/
theorem meaningful_gate_spec :
    (∀ (vec : List ℝ) (strokes : List Stroke),
        hasMeaningful vec strokes ↔
          5 < vec.sum ∧
            8 < vec.countP (fun v => decide (0.18 < v)) ∧
              0 < (strokes.filter (fun s => decide (1 < s.length))).length) ∧
    ¬ hasMeaningful blankGrid [] ∧
    hasMeaningful inkGrid6 [stroke3] := by
  exact ⟨fun vec strokes => Iff.rfl, blank_not_meaningful, inkGrid6_meaningful⟩

/-- C4: appending a sample keeps the dataset at or below 2000 entries; below
the cap it is a plain append at the end, and at exactly 2000 entries the
single oldest entry is evicted while the remaining 1999 plus the new sample
keep their order. -/
theorem appendSample_spec (ds : List Sample) (s : Sample) :
    (appendSample ds s).length ≤ 2000 ∧
    (ds.length < 2000 → appendSample ds s = ds ++ [s]) ∧
    (ds.length = 2000 → appendSample ds s = ds.drop 1 ++ [s]) := by
  refine ⟨?_, ?_, ?_⟩
  · rw [appendSample, jsSliceLast, List.length_drop]
    simp only [List.length_append, List.length_cons, List.length_nil]
    omega
  · intro h
    rw [appendSample, jsSliceLast]
    have : (ds ++ [s]).length - 2000 = 0 := by
      simp only [List.length_append, List.length_cons, List.length_nil]
      omega
    rw [this, List.drop_zero]
  · intro h
    rw [appendSample, jsSliceLast]
    have h1 : (ds ++ [s]).length - 2000 = 1 := by
      simp only [List.length_append, List.length_cons, List.length_nil]
      omega
    rw [h1, List.drop_append_of_le_length (by omega)]

/-- A throwaway sample used as concrete witness data. -/
def sampleA : Sample :=
  ⟨"a", [], none, 0⟩

/-- A second throwaway sample used as concrete witness data. -/
def sampleB : Sample :=
  ⟨"b", [], none, 0⟩

theorem appendSample_spec_witness :
    (List.replicate 2000 sampleA).length = 2000 ∧
    appendSample (List.replicate 2000 sampleA) sampleB =
      (List.replicate 2000 sampleA).drop 1 ++ [sampleB] :=
  ⟨List.length_replicate 2000 sampleA,
   (appendSample_spec (List.replicate 2000 sampleA) sampleB).2.2
     (List.length_replicate 2000 sampleA)⟩

/-- C10: running the classifier only rewrites the displayed guess,
confidence and status message; the in-memory dataset, the persisted store
and the current prompt are untouched on every code path. -/
theorem guessDrawing_frame (st : AppState) (vec : List ℝ) (strokes : List Stroke) :
    (runGuessDrawing st vec strokes).dataset = st.dataset ∧
    (runGuessDrawing st vec strokes).store = st.store ∧
    (runGuessDrawing st vec strokes).prompt = st.prompt := by
  refine ⟨?_, ?_, ?_⟩ <;> rfl

/-- C8: on equal-length vectors, `cosineDistance` is 1 when either vector
has zero norm and otherwise equals one minus the normalised dot product. -/
theorem cosineDistance_spec (a b : List ℝ) (hlen : a.length = b.length) :
    ((Real.sqrt (normSq a) = 0 ∨ Real.sqrt (normSq b) = 0) → cosineDistance a b = 1) ∧
    (Real.sqrt (normSq a) ≠ 0 → Real.sqrt (normSq b) ≠ 0 →
      cosineDistance a b =
        1 - dotSum a b / (Real.sqrt (normSq a) * Real.sqrt (normSq b))) := by
  constructor
  · intro h
    rw [cosineDistance]
    rcases h with h | h <;> simp [h]
  · intro ha hb
    rw [cosineDistance]
    rw [if_neg (mul_ne_zero ha hb)]

theorem cosineDistance_spec_witness :
    ([(0 : ℝ), 0].length = [(1 : ℝ), 2].length) ∧ cosineDistance [(0 : ℝ), 0] [1, 2] = 1 := by
  refine ⟨rfl, (cosineDistance_spec [(0 : ℝ), 0] [1, 2] rfl).1 (Or.inl ?_)⟩
  have : normSq [(0 : ℝ), 0] = 0 := by simp [normSq]
  rw [this, Real.sqrt_zero]

theorem itemPasses_iff (v : JVal) : itemPasses v = true ↔ specCheckAmended v := by
  constructor
  · intro h
    rw [itemPasses, Bool.and_eq_true, Bool.and_eq_true] at h
    obtain ⟨⟨-, hlab⟩, hvec⟩ := h
    constructor
    · split at hlab
      next s heq => exact ⟨s, heq⟩
      next => exact absurd hlab (by simp)
    · split at hvec
      next xs heq => exact ⟨xs, heq, of_decide_eq_true hvec⟩
      next => exact absurd hvec (by simp)
  · rintro ⟨⟨s, hs⟩, xs, hxs, hlen⟩
    have hobj : ∃ fields, v = JVal.jobj fields := by
      cases v <;> simp [getField] at hs
      exact ⟨_, rfl⟩
    obtain ⟨fields, rfl⟩ := hobj
    rw [itemPasses, hs, hxs]
    simp [truthy, hlen]

/-- An entry whose `vector` is a 256-entry array of booleans. -/
def badEntry : JVal :=
  .jobj [("label", .jstr "cat"), ("vector", .jarr (List.replicate 256 (.jbool true)))]

/-- C5 counterexample: `badEntry` is kept by `loadDataset` even though it
fails the claimed "256 numeric entries" structural check, because the code
never inspects the entry types. -/
theorem loadDataset_keeps_nonNumeric :
    loadDataset (.value (.jarr [badEntry])) = [badEntry] ∧ ¬ specCheckNumeric badEntry := by
  constructor
  · have hpass : itemPasses badEntry = true := by
      apply (itemPasses_iff badEntry).mpr
      refine ⟨⟨"cat", rfl⟩, List.replicate 256 (.jbool true), rfl, ?_⟩
      exact List.length_replicate 256 _
    simp [loadDataset, hpass]
  · rintro ⟨-, xs, hxs, -, hall⟩
    have hxs2 : xs = List.replicate 256 (JVal.jbool true) := by
      have : getField badEntry "vector" =
          some (.jarr (List.replicate 256 (.jbool true))) := rfl
      rw [this] at hxs
      injection hxs with h
      injection h with h2
      exact h2.symm
    have hmem : JVal.jbool true ∈ xs := by
      rw [hxs2]
      exact List.mem_replicate.mpr ⟨by norm_num, rfl⟩
    obtain ⟨q, hq⟩ := hall _ hmem
    exact JVal.noConfusion hq

/-- C5 amended: `loadDataset` never fails and returns exactly the entries of
a stored array whose `label` is a string and whose `vector` is an array with
exactly 256 entries (the entries' types are not checked); a corrupt,
non-array or absent store yields the empty dataset. -/
theorem loadDataset_spec (st : RawStore) (x : JVal) :
    x ∈ loadDataset st ↔
      ∃ items, st = RawStore.value (.jarr items) ∧ x ∈ items ∧ specCheckAmended x := by
  cases st with
  | absent => simp [loadDataset]
  | corrupt => simp [loadDataset]
  | value v =>
    cases v with
    | jarr items =>
      simp only [loadDataset, List.mem_filter, RawStore.value.injEq, JVal.jarr.injEq]
      constructor
      · rintro ⟨hmem, hpass⟩
        exact ⟨items, rfl, hmem, (itemPasses_iff x).mp hpass⟩
      · rintro ⟨items2, heq, hmem, hcheck⟩
        cases heq
        exact ⟨hmem, (itemPasses_iff x).mpr hcheck⟩
    | jnull => simp [loadDataset]
    | jbool b => simp [loadDataset]
    | jnum q => simp [loadDataset]
    | jstr s => simp [loadDataset]
    | jobj fields => simp [loadDataset]

/-- C6 counterexample: with an empty dataset but a blank canvas, the gate
fires first and the guess is "unknown", not the "needs training data"
sentinel the claim requires for every input grid (the confidence is still
0). -/
theorem emptyDataset_blank_counterexample :
    (guessDrawingResult [] blankGrid []).guess ≠ "Need training data first" ∧
    (guessDrawingResult [] blankGrid []).confidence = 0 := by
  have h : guessDrawingResult [] blankGrid [] =
      ⟨"unknown", 0, "Draw something first — erased/blank canvas cannot be guessed."⟩ := by
    rw [guessDrawingResult, if_neg blank_not_meaningful]
  rw [h]
  exact ⟨by decide, rfl⟩

/-- C6 amended: classifying against an empty dataset always yields
confidence 0; when the attempt additionally passes the meaningful-drawing
gate, the emitted guess is the "needs training data" sentinel. -/
theorem emptyDataset_spec (vec : List ℝ) (strokes : List Stroke) :
    (guessDrawingResult [] vec strokes).confidence = 0 ∧
    (hasMeaningful vec strokes →
      (guessDrawingResult [] vec strokes).guess = "Need training data first" ∧
      (guessDrawingResult [] vec strokes).statusMessage =
        "Train me with a few drawings before guessing.") := by
  by_cases h : hasMeaningful vec strokes
  · have he : guessDrawingResult [] vec strokes =
        ⟨"Need training data first", 0, "Train me with a few drawings before guessing."⟩ := by
      rw [guessDrawingResult, if_pos h, if_pos rfl]
    rw [he]
    exact ⟨rfl, fun _ => ⟨rfl, rfl⟩⟩
  · have he : guessDrawingResult [] vec strokes =
        ⟨"unknown", 0, "Draw something first — erased/blank canvas cannot be guessed."⟩ := by
      rw [guessDrawingResult, if_neg h]
    rw [he]
    exact ⟨rfl, fun hm => absurd hm h⟩

theorem emptyDataset_spec_witness :
    (guessDrawingResult [] inkGrid6 [stroke3]).confidence = 0 ∧
    (guessDrawingResult [] inkGrid6 [stroke3]).guess = "Need training data first" :=
  ⟨(emptyDataset_spec inkGrid6 [stroke3]).1,
   ((emptyDataset_spec inkGrid6 [stroke3]).2 inkGrid6_meaningful).1⟩

theorem guessDrawingResult_main (dataset : List Sample) (vec : List ℝ)
    (strokes : List Stroke) (hm : hasMeaningful vec strokes) (hds : dataset ≠ []) :
    guessDrawingResult dataset vec strokes =
      ⟨if lowConfidenceOf dataset vec strokes then "unknown"
         else bestLabelOf dataset vec strokes,
       confOf dataset vec strokes,
       if lowConfidenceOf dataset vec strokes then
         "Not confident enough to guess yet — try cleaner strokes."
       else ""⟩ := by
  rw [guessDrawingResult, if_pos hm, if_neg hds]

theorem byLabelStep_keys (acc : List (String × Bucket)) (s : Sample) :
    (byLabelStep acc s).map Prod.fst =
      if acc.any (fun p => p.1 == s.label) then acc.map Prod.fst
      else acc.map Prod.fst ++ [s.label] := by
  rw [byLabelStep]
  by_cases h : acc.any (fun p => p.1 == s.label)
  · rw [if_pos h, if_pos h, List.map_map]
    congr 1
    funext p
    by_cases hp : p.1 = s.label <;> simp [hp]
  · rw [if_neg h, if_neg h, List.map_append]
    rfl

theorem mem_keys_foldl (l : String) :
    ∀ (ds : List Sample) (acc : List (String × Bucket)),
      (l ∈ (List.foldl byLabelStep acc ds).map Prod.fst ↔
        l ∈ acc.map Prod.fst ∨ l ∈ ds.map Sample.label) := by
  intro ds
  induction ds with
  | nil => intro acc; simp
  | cons s t ih =>
    intro acc
    rw [List.foldl_cons, ih (byLabelStep acc s), byLabelStep_keys]
    by_cases h : acc.any (fun p => p.1 == s.label)
    · rw [if_pos h]
      obtain ⟨p, hp, hpl⟩ := List.any_eq_true.mp h
      have hlab : s.label ∈ acc.map Prod.fst := by
        rw [← eq_of_beq hpl]
        exact List.mem_map_of_mem Prod.fst hp
      constructor
      · rintro (hc | hc)
        · exact Or.inl hc
        · refine Or.inr ?_
          rw [List.map_cons, List.mem_cons]
          exact Or.inr hc
      · rintro (hc | hc)
        · exact Or.inl hc
        · rw [List.map_cons, List.mem_cons] at hc
          rcases hc with hc2 | hc2
          · exact Or.inl (hc2 ▸ hlab)
          · exact Or.inr hc2
    · rw [if_neg h]
      simp only [List.mem_append, List.mem_singleton, List.map_cons, List.mem_cons]
      tauto

theorem keys_nodup_foldl :
    ∀ (ds : List Sample) (acc : List (String × Bucket)),
      (acc.map Prod.fst).Nodup → ((List.foldl byLabelStep acc ds).map Prod.fst).Nodup := by
  intro ds
  induction ds with
  | nil => intro acc h; simpa using h
  | cons s t ih =>
    intro acc h
    rw [List.foldl_cons]
    refine ih _ ?_
    rw [byLabelStep_keys]
    by_cases hc : acc.any (fun p => p.1 == s.label)
    · rwa [if_pos hc]
    · rw [if_neg hc]
      refine List.Nodup.append h (List.nodup_singleton _) ?_
      intro x hx hxs
      rw [List.mem_singleton] at hxs
      obtain ⟨p, hp, hpe⟩ := List.mem_map.mp hx
      rw [List.any_eq_true] at hc
      exact hc ⟨p, hp, by rw [beq_iff_eq, hpe, hxs]⟩

theorem buildPrototypes_length (dataset : List Sample) :
    (buildPrototypes dataset).length = (dataset.map Sample.label).dedup.length := by
  rw [buildPrototypes, List.length_map]
  have h1 : (byLabelFold dataset).length = ((byLabelFold dataset).map Prod.fst).length := by
    rw [List.length_map]
  rw [h1]
  have hnd : ((byLabelFold dataset).map Prod.fst).Nodup :=
    keys_nodup_foldl dataset [] (by simp)
  have hnd2 : ((dataset.map Sample.label).dedup).Nodup := List.nodup_dedup _
  rw [← List.toFinset_card_of_nodup hnd, ← List.toFinset_card_of_nodup hnd2]
  congr 1
  ext x
  simp only [List.mem_toFinset, List.mem_dedup]
  rw [byLabelFold]
  rw [mem_keys_foldl x dataset []]
  simp

theorem byLabelFold_ne_nil (dataset : List Sample) (hds : dataset ≠ []) :
    byLabelFold dataset ≠ [] := by
  cases dataset with
  | nil => exact absurd rfl hds
  | cons s t =>
    intro h
    have hm : s.label ∈ (List.foldl byLabelStep [] (s :: t)).map Prod.fst :=
      (mem_keys_foldl s.label (s :: t) []).mpr (Or.inr (by simp))
    rw [byLabelFold] at h
    rw [h] at hm
    simp at hm

theorem bumpVote_ne_nil (vs : List (String × ℝ)) (l : String) (w : ℝ) :
    bumpVote vs l w ≠ [] := by
  rw [bumpVote]
  by_cases h : vs.any (fun p => p.1 == l)
  · rw [if_pos h]
    cases vs with
    | nil => simp at h
    | cons p t => simp
  · rw [if_neg h]
    simp

theorem bumpVote_pos (vs : List (String × ℝ)) (l : String) (w : ℝ)
    (hvs : ∀ p ∈ vs, 0 < p.2) (hw : 0 < w) :
    ∀ p ∈ bumpVote vs l w, 0 < p.2 := by
  intro p hp
  rw [bumpVote] at hp
  by_cases h : vs.any (fun q => q.1 == l)
  · rw [if_pos h] at hp
    obtain ⟨q, hq, hqe⟩ := List.mem_map.mp hp
    by_cases hql : q.1 == l
    · rw [if_pos hql] at hqe
      rw [← hqe]
      exact add_pos (hvs q hq) hw
    · rw [if_neg hql] at hqe
      rw [← hqe]
      exact hvs q hq
  · rw [if_neg h] at hp
    rcases List.mem_append.mp hp with hp2 | hp2
    · exact hvs p hp2
    · rw [List.mem_singleton] at hp2
      rw [hp2]
      exact hw

theorem foldl_bumpVote_pos (w : String × ℝ → ℝ) (hw : ∀ e, 0 < w e) :
    ∀ (entries vs : List (String × ℝ)), (∀ p ∈ vs, 0 < p.2) →
      ∀ p ∈ entries.foldl (fun acc e => bumpVote acc e.1 (w e)) vs, 0 < p.2 := by
  intro entries
  induction entries with
  | nil => intro vs hvs; exact hvs
  | cons e t ih =>
    intro vs hvs
    rw [List.foldl_cons]
    exact ih _ (bumpVote_pos vs e.1 (w e) hvs (hw e))

theorem foldl_bumpVote_ne_nil_stay (w : String × ℝ → ℝ) :
    ∀ (entries vs : List (String × ℝ)), vs ≠ [] →
      entries.foldl (fun acc e => bumpVote acc e.1 (w e)) vs ≠ [] := by
  intro entries
  induction entries with
  | nil => intro vs h; exact h
  | cons e t ih =>
    intro vs _
    rw [List.foldl_cons]
    exact ih _ (bumpVote_ne_nil vs e.1 (w e))

theorem foldl_bumpVote_ne_nil (w : String × ℝ → ℝ)
    (entries vs : List (String × ℝ)) (he : entries ≠ []) :
    entries.foldl (fun acc e => bumpVote acc e.1 (w e)) vs ≠ [] := by
  cases entries with
  | nil => exact absurd rfl he
  | cons e t =>
    rw [List.foldl_cons]
    exact foldl_bumpVote_ne_nil_stay w t _ (bumpVote_ne_nil vs e.1 (w e))

theorem votesOf_pos (dataset : List Sample) (vec : List ℝ) (strokes : List Stroke) :
    ∀ p ∈ votesOf dataset vec strokes, 0 < p.2 := by
  rw [votesOf]
  have hw2 : ∀ e : String × ℝ, 0 < 0.9 / max e.2 0.05 := by
    intro e
    apply div_pos (by norm_num)
    exact lt_of_lt_of_le (by norm_num) (le_max_right e.2 0.05)
  refine foldl_bumpVote_pos _ hw2 _ _ ?_
  have hw1 : ∀ e : String × ℝ, 0 < 1 / max e.2 0.05 := by
    intro e
    apply div_pos (by norm_num)
    exact lt_of_lt_of_le (by norm_num) (le_max_right e.2 0.05)
  refine foldl_bumpVote_pos _ hw1 _ _ ?_
  intro p hp
  simp at hp

theorem votesOf_ne_nil (dataset : List Sample) (vec : List ℝ) (strokes : List Stroke)
    (hds : dataset ≠ []) : votesOf dataset vec strokes ≠ [] := by
  rw [votesOf]
  apply foldl_bumpVote_ne_nil
  rw [scoredPrototypes, buildPrototypes]
  intro h
  rw [List.map_eq_nil_iff] at h
  rw [List.map_eq_nil_iff] at h
  exact byLabelFold_ne_nil dataset hds h

theorem voteTotal_pos (dataset : List Sample) (vec : List ℝ) (strokes : List Stroke)
    (hds : dataset ≠ []) : 0 < voteTotalOf dataset vec strokes := by
  rw [voteTotalOf]
  have hperm : (rankedOf dataset vec strokes).Perm (votesOf dataset vec strokes) :=
    List.mergeSort_perm _ _
  rw [List.Perm.sum_eq (List.Perm.map Prod.snd hperm)]
  apply List.sum_pos
  · intro x hx
    obtain ⟨p, hp, rfl⟩ := List.mem_map.mp hx
    exact votesOf_pos dataset vec strokes p hp
  · rw [ne_eq, List.map_eq_nil_iff]
    exact votesOf_ne_nil dataset vec strokes hds

theorem certaintyOf_eq (dataset : List Sample) (vec : List ℝ) (strokes : List Stroke)
    (hds : dataset ≠ []) :
    certaintyOf dataset vec strokes =
      bestScoreOf dataset vec strokes / voteTotalOf dataset vec strokes := by
  rw [certaintyOf, if_pos (voteTotal_pos dataset vec strokes hds)]

theorem jsRound_clamp_eq (x : ℝ) :
    max 1 (min 99 (jsRound (x * 100))) =
      max 1 (min 99 (jsRound (100 * clampR x 0.01 0.99))) := by
  rcases le_or_lt x 0.01 with h | h
  · have hcl : clampR x 0.01 0.99 = 0.01 := by
      rw [clampR, min_eq_left (le_trans h (by norm_num)), max_eq_left h]
    rw [hcl]
    have h1 : jsRound (100 * (0.01 : ℝ)) = 1 := by
      rw [jsRound]
      exact Int.floor_eq_iff.mpr ⟨by norm_num, by norm_num⟩
    rw [h1]
    have h2 : jsRound (x * 100) ≤ 1 := by
      rw [jsRound]
      calc ⌊x * 100 + 1 / 2⌋ ≤ ⌊(3 : ℝ) / 2⌋ := Int.floor_le_floor (by linarith)
        _ = 1 := Int.floor_eq_iff.mpr ⟨by norm_num, by norm_num⟩
    rw [max_eq_left (le_trans (min_le_right 99 _) h2)]
    norm_num
  · rcases le_or_lt 0.99 x with h2 | h2
    · have hcl : clampR x 0.01 0.99 = 0.99 := by
        rw [clampR, min_eq_right h2]
        norm_num
      rw [hcl]
      have h99 : jsRound (100 * (0.99 : ℝ)) = 99 := by
        rw [jsRound]
        exact Int.floor_eq_iff.mpr ⟨by norm_num, by norm_num⟩
      rw [h99]
      have hge : (99 : ℤ) ≤ jsRound (x * 100) := by
        rw [jsRound]
        calc (99 : ℤ) = ⌊(199 : ℝ) / 2⌋ := (Int.floor_eq_iff.mpr ⟨by norm_num, by norm_num⟩).symm
          _ ≤ ⌊x * 100 + 1 / 2⌋ := Int.floor_le_floor (by linarith)
      rw [min_eq_left hge]
      norm_num
    · have hcl : clampR x 0.01 0.99 = x := by
        rw [clampR, min_eq_left (le_of_lt h2), max_eq_right (le_of_lt h)]
      rw [hcl, mul_comm]

/-- C1: on a meaningful attempt with a non-empty dataset, `lowConfidence`
holds exactly when the emitted confidence is below 60 or the margin is below
0.12, and whenever it holds the emitted label is "unknown" instead of the
winning label. -/
theorem lowConfidence_spec (dataset : List Sample) (vec : List ℝ) (strokes : List Stroke)
    (hm : hasMeaningful vec strokes) (hds : dataset ≠ []) :
    (lowConfidenceOf dataset vec strokes ↔
      (guessDrawingResult dataset vec strokes).confidence < 60 ∨
        marginOf dataset vec strokes < 0.12) ∧
    (lowConfidenceOf dataset vec strokes →
      (guessDrawingResult dataset vec strokes).guess = "unknown") := by
  rw [guessDrawingResult_main dataset vec strokes hm hds]
  constructor
  · exact Iff.rfl
  · intro h
    show (if lowConfidenceOf dataset vec strokes then "unknown"
        else bestLabelOf dataset vec strokes) = "unknown"
    rw [if_pos h]

/-- C2: on a meaningful attempt with a non-empty dataset, the emitted
confidence equals `round(100 · clamp(certainty·0.65 + margin·0.25 +
prototypeWeight·0.10, 0.01, 0.99))` clamped to [1, 99], with certainty the
winner's share of the vote mass, margin the raw top-two tally difference
and prototypeWeight `min(distinct trained labels / 10, 1)`. -/
theorem confidence_formula_spec (dataset : List Sample) (vec : List ℝ)
    (strokes : List Stroke) (hm : hasMeaningful vec strokes) (hds : dataset ≠ []) :
    (guessDrawingResult dataset vec strokes).confidence =
      max 1 (min 99 (jsRound (100 * clampR
        (bestScoreOf dataset vec strokes / voteTotalOf dataset vec strokes * 0.65 +
          marginOf dataset vec strokes * 0.25 +
          min (((dataset.map Sample.label).dedup.length : ℝ) / 10) 1 * 0.1)
        0.01 0.99))) := by
  rw [guessDrawingResult_main dataset vec strokes hm hds]
  show confOf dataset vec strokes = _
  rw [confOf, certaintyOf_eq dataset vec strokes hds]
  have hpw : prototypeWeightOf dataset =
      min (((dataset.map Sample.label).dedup.length : ℝ) / 10) 1 := by
    rw [prototypeWeightOf, buildPrototypes_length]
  rw [hpw]
  exact jsRound_clamp_eq _

noncomputable section

/-- Concrete query ink vector: twelve fully-inked cells. -/
def catVec : List ℝ :=
  List.replicate 12 1 ++ List.replicate 244 0

/-- Concrete query strokes: one two-point stroke. -/
def catStrokes : List Stroke :=
  [[⟨0, 0⟩, ⟨300, 400⟩]]

/-- The feature bundle of the concrete query. -/
def catFeat : FeatureVec :=
  combineFeatures catVec catStrokes

/-- A stored "cat" sample whose ink vector and features equal the query's. -/
def catSample : Sample :=
  ⟨"cat", catVec, some catFeat, 0⟩

/-- A dataset of ten identical "cat" samples. -/
def catDs : List Sample :=
  List.replicate 10 catSample

/-- Field-wise scalar multiple of a feature bundle (proof-side helper). -/
def featSmul (c : ℝ) (f : FeatureVec) : FeatureVec :=
  ⟨c * f.fillRatio, c * f.aspectRatio, c * f.compactness, c * f.symmetryX,
   c * f.symmetryY, c * f.edgeDensity, c * f.lengthNorm, c * f.straightness,
   c * f.strokeCount⟩

end

theorem catVec_length : catVec.length = 256 := by
  rw [catVec, List.length_append, List.length_replicate, List.length_replicate]

theorem catVec_sum : catVec.sum = 12 := by
  rw [catVec, List.sum_append, List.sum_replicate, List.sum_replicate]
  push_cast [nsmul_eq_mul]
  norm_num

theorem catVec_active : catVec.countP (fun v => decide (0.18 < v)) = 12 := by
  rw [catVec, List.countP_append, countP_replicate_eq, countP_replicate_eq]
  norm_num

theorem cat_meaningful : hasMeaningful catVec catStrokes := by
  refine ⟨?_, ?_, ?_⟩
  · rw [catVec_sum]; norm_num
  · rw [catVec_active]; norm_num
  · simp [catStrokes]

theorem catVec_normSq : normSq catVec = 12 := by
  rw [normSq, catVec, List.map_append, List.map_replicate, List.map_replicate,
    List.sum_append, List.sum_replicate, List.sum_replicate]
  push_cast [nsmul_eq_mul]
  norm_num

theorem catVec_normSq_ne : normSq catVec ≠ 0 := by
  rw [catVec_normSq]
  norm_num

theorem sampleFeatures_cat : sampleFeatures catSample = catFeat := rfl

theorem featureDistance_query_cat :
    featureDistance (combineFeatures catVec catStrokes) catFeat = 0 :=
  featureDistance_self catFeat

theorem scoreExample_cat : scoreExample catVec catStrokes catSample = ("cat", 0) := by
  rw [scoreExample, sampleFeatures_cat]
  show ("cat",
      distance catVec catVec / Real.sqrt ((catVec.length : ℕ) : ℝ) * 1.9 +
        cosineDistance catVec catVec * 1.4 +
        featureDistance (combineFeatures catVec catStrokes) catFeat * 1.7) = ("cat", 0)
  rw [distance_self, cosineDistance_self catVec catVec_normSq_ne, featureDistance_query_cat]
  norm_num

theorem scoredExamples_cat :
    scoredExamples catDs catVec catStrokes = List.replicate 10 ("cat", (0 : ℝ)) := by
  rw [scoredExamples, catDs, List.map_replicate, scoreExample_cat]

theorem byLabelStep_nil (s : Sample) :
    byLabelStep [] s = [(s.label, addSample emptyBucket s)] := by
  rw [byLabelStep]
  simp

theorem byLabelStep_single (s : Sample) (b : Bucket) :
    byLabelStep [(s.label, b)] s = [(s.label, addSample b s)] := by
  rw [byLabelStep]
  simp

theorem foldl_step_replicate (s : Sample) :
    ∀ (n : ℕ) (b : Bucket),
      List.foldl byLabelStep [(s.label, b)] (List.replicate n s) =
        [(s.label, (fun bb => addSample bb s)^[n] b)] := by
  intro n
  induction n with
  | zero => intro b; simp
  | succ k ih =>
    intro b
    rw [List.replicate_succ, List.foldl_cons, byLabelStep_single, ih,
      ← Function.iterate_succ_apply]

theorem byLabelFold_replicate (s : Sample) (n : ℕ) :
    byLabelFold (List.replicate (n + 1) s) =
      [(s.label, (fun bb => addSample bb s)^[n] (addSample emptyBucket s))] := by
  rw [byLabelFold, List.replicate_succ, List.foldl_cons, byLabelStep_nil,
    foldl_step_replicate]

theorem zipWith_add_replicate_zero (v : List ℝ) :
    List.zipWith (· + ·) (List.replicate v.length 0) v = v := by
  induction v with
  | nil => simp
  | cons x t ih =>
    rw [List.length_cons, List.replicate_succ, List.zipWith_cons_cons, ih, zero_add]

theorem addVec_zeros (v : List ℝ) (h : v.length = 256) :
    addVec (List.replicate 256 0) v = v := by
  rw [addVec, ← h, zipWith_add_replicate_zero]
  simp

theorem zipWith_add_map_smul (v : List ℝ) (k : ℝ) :
    List.zipWith (· + ·) (v.map (fun x => k * x)) v = v.map (fun x => (k + 1) * x) := by
  induction v with
  | nil => simp
  | cons x t ih =>
    rw [List.map_cons, List.zipWith_cons_cons, ih, List.map_cons]
    congr 1
    ring

theorem addVec_map_smul (v : List ℝ) (k : ℝ) :
    addVec (v.map (fun x => k * x)) v = v.map (fun x => (k + 1) * x) := by
  rw [addVec, zipWith_add_map_smul]
  simp

theorem featAdd_zero (f : FeatureVec) : featAdd ⟨0, 0, 0, 0, 0, 0, 0, 0, 0⟩ f = f := by
  cases f
  simp [featAdd]

theorem featSmul_one (f : FeatureVec) : featSmul 1 f = f := by
  cases f
  simp [featSmul]

theorem featAdd_smul (c : ℝ) (f : FeatureVec) :
    featAdd (featSmul c f) f = featSmul (c + 1) f := by
  cases f
  simp only [featAdd, featSmul, FeatureVec.mk.injEq]
  refine ⟨?_, ?_, ?_, ?_, ?_, ?_, ?_, ?_, ?_⟩ <;> ring

theorem featDiv_smul (c : ℝ) (hc : c ≠ 0) (f : FeatureVec) :
    featDiv (featSmul c f) c = f := by
  cases f
  simp only [featDiv, featSmul, FeatureVec.mk.injEq]
  refine ⟨?_, ?_, ?_, ?_, ?_, ?_, ?_, ?_, ?_⟩ <;> exact mul_div_cancel_left₀ _ hc

theorem iter_addSample_cat (n : ℕ) :
    (fun bb => addSample bb catSample)^[n] (addSample emptyBucket catSample) =
      ⟨n + 1, catVec.map (fun x => ((n : ℝ) + 1) * x), featSmul ((n : ℝ) + 1) catFeat⟩ := by
  induction n with
  | zero =>
    rw [Function.iterate_zero_apply]
    have h1 : (fun x : ℝ => (((0 : ℕ) : ℝ) + 1) * x) = fun x : ℝ => x :=
      funext fun x => by norm_num
    rw [h1, List.map_id']
    show addSample ⟨0, List.replicate 256 0, ⟨0, 0, 0, 0, 0, 0, 0, 0, 0⟩⟩ catSample = _
    rw [addSample, sampleFeatures_cat]
    show (⟨0 + 1, addVec (List.replicate 256 0) catVec,
      featAdd ⟨0, 0, 0, 0, 0, 0, 0, 0, 0⟩ catFeat⟩ : Bucket) = _
    rw [addVec_zeros catVec catVec_length, featAdd_zero]
    have h2 : featSmul (((0 : ℕ) : ℝ) + 1) catFeat = catFeat := by
      rw [show (((0 : ℕ) : ℝ) + 1) = 1 by norm_num, featSmul_one]
    rw [h2]
  | succ k ih =>
    rw [Function.iterate_succ_apply', ih, addSample, sampleFeatures_cat]
    show (⟨(k + 1) + 1, addVec (catVec.map (fun x => ((k : ℝ) + 1) * x)) catVec,
      featAdd (featSmul ((k : ℝ) + 1) catFeat) catFeat⟩ : Bucket) = _
    rw [addVec_map_smul, featAdd_smul]
    have hc : (((k + 1 : ℕ) : ℝ) + 1) = (((k : ℝ) + 1) + 1) := by push_cast; ring
    rw [hc]

theorem mkProto_mk (l : String) (c : ℕ) (vs : List ℝ) (fs : FeatureVec) :
    mkProto (l, ⟨c, vs, fs⟩) =
      ⟨l, c, vs.map (fun v => v / (c : ℝ)), featDiv fs (c : ℝ)⟩ := rfl

theorem map_smul_div_self (v : List ℝ) (c : ℝ) (hc : c ≠ 0) :
    (v.map (fun x => c * x)).map (fun x => x / c) = v := by
  rw [List.map_map]
  have h : ((fun x : ℝ => x / c) ∘ fun x : ℝ => c * x) = fun x : ℝ => x :=
    funext fun x => mul_div_cancel_left₀ x hc
  rw [h, List.map_id']

theorem buildPrototypes_cat :
    buildPrototypes catDs = [⟨"cat", 10, catVec, catFeat⟩] := by
  have h9 : catDs = List.replicate (9 + 1) catSample := by
    rw [catDs]
  rw [buildPrototypes, h9, byLabelFold_replicate, iter_addSample_cat]
  simp only [List.map_cons, List.map_nil]
  rw [mkProto_mk]
  have hd : (((9 + 1 : ℕ) : ℝ)) = (((9 : ℕ) : ℝ) + 1) := by push_cast; ring
  have hc : (((9 : ℕ) : ℝ) + 1) ≠ 0 := by positivity
  have hvec : (catVec.map (fun x => (((9 : ℕ) : ℝ) + 1) * x)).map
      (fun v => v / (((9 + 1 : ℕ) : ℝ))) = catVec := by
    rw [hd]
    exact map_smul_div_self catVec _ hc
  have hfeat : featDiv (featSmul (((9 : ℕ) : ℝ) + 1) catFeat) (((9 + 1 : ℕ) : ℝ)) =
      catFeat := by
    rw [hd]
    exact featDiv_smul _ hc catFeat
  rw [hvec, hfeat]
  have hlab : catSample.label = "cat" := rfl
  rw [hlab]

theorem scoreProto_mk (vec : List ℝ) (strokes : List Stroke) (l : String) (c : ℕ)
    (v : List ℝ) (f : FeatureVec) :
    scoreProto vec strokes ⟨l, c, v, f⟩ =
      (l, distance vec v / Real.sqrt (vec.length : ℝ) * 1.6 +
        cosineDistance vec v * 1.2 +
        featureDistance (combineFeatures vec strokes) f * 1.5 -
        min (c : ℝ) 12 / 120) := rfl

theorem scoreProto_cat :
    scoreProto catVec catStrokes ⟨"cat", 10, catVec, catFeat⟩ = ("cat", -(1 / 12)) := by
  rw [scoreProto_mk, distance_self, cosineDistance_self catVec catVec_normSq_ne,
    featureDistance_query_cat]
  congr 1
  push_cast
  norm_num [min_def]

theorem scoredPrototypes_cat :
    scoredPrototypes catDs catVec catStrokes = [("cat", -(1 / 12))] := by
  rw [scoredPrototypes, buildPrototypes_cat]
  simp only [List.map_cons, List.map_nil]
  rw [scoreProto_cat]

theorem nearestNine_cat :
    nearestNine catDs catVec catStrokes = List.replicate 9 ("cat", (0 : ℝ)) := by
  rw [nearestNine, scoredExamples_cat]
  have hperm :=
    List.mergeSort_perm (List.replicate 10 ("cat", (0 : ℝ))) (fun a b => decide (a.2 ≤ b.2))
  rw [List.perm_replicate.mp hperm, List.take_replicate]
  rfl

theorem bumpVote_nil (l : String) (w : ℝ) : bumpVote [] l w = [(l, w)] := by
  rw [bumpVote]
  simp

theorem bumpVote_same (l : String) (x w : ℝ) :
    bumpVote [(l, x)] l w = [(l, x + w)] := by
  rw [bumpVote]
  simp

theorem neighborWeight_zero : (1 : ℝ) / max (0 : ℝ) 0.05 = 20 := by
  rw [max_eq_right (by norm_num : (0 : ℝ) ≤ 0.05)]
  norm_num

theorem protoWeight_cat : (0.9 : ℝ) / max (-(1 / 12) : ℝ) 0.05 = 18 := by
  rw [max_eq_right (by norm_num : (-(1 / 12) : ℝ) ≤ 0.05)]
  norm_num

theorem foldl_votes_cat :
    ∀ (n : ℕ) (x : ℝ),
      List.foldl (fun vs p => bumpVote vs p.1 (1 / max p.2 0.05)) [("cat", x)]
        (List.replicate n ("cat", (0 : ℝ))) = [("cat", x + (n : ℝ) * 20)] := by
  intro n
  induction n with
  | zero => intro x; simp
  | succ k ih =>
    intro x
    rw [List.replicate_succ, List.foldl_cons]
    show List.foldl (fun vs p => bumpVote vs p.1 (1 / max p.2 0.05))
        (bumpVote [("cat", x)] "cat" (1 / max (0 : ℝ) 0.05))
        (List.replicate k ("cat", (0 : ℝ))) = _
    rw [neighborWeight_zero, bumpVote_same, ih]
    have hx : x + 20 + (k : ℝ) * 20 = x + ((k + 1 : ℕ) : ℝ) * 20 := by
      push_cast
      ring
    rw [hx]

theorem votesOf_cat : votesOf catDs catVec catStrokes = [("cat", 198)] := by
  rw [votesOf, nearestNine_cat, scoredPrototypes_cat]
  have h9 : List.replicate 9 ("cat", (0 : ℝ)) =
      ("cat", (0 : ℝ)) :: List.replicate 8 ("cat", (0 : ℝ)) := rfl
  have hinner : List.foldl (fun vs p => bumpVote vs p.1 (1 / max p.2 0.05)) []
      (List.replicate 9 ("cat", (0 : ℝ))) = [("cat", 180)] := by
    rw [h9, List.foldl_cons]
    show List.foldl (fun vs p => bumpVote vs p.1 (1 / max p.2 0.05))
        (bumpVote [] "cat" (1 / max (0 : ℝ) 0.05))
        (List.replicate 8 ("cat", (0 : ℝ))) = _
    rw [neighborWeight_zero, bumpVote_nil, foldl_votes_cat]
    norm_num
  rw [hinner, List.foldl_cons, List.foldl_nil]
  show bumpVote [("cat", 180)] "cat" (0.9 / max (-(1 / 12) : ℝ) 0.05) = [("cat", 198)]
  rw [protoWeight_cat, bumpVote_same]
  norm_num

theorem rankedOf_cat : rankedOf catDs catVec catStrokes = [("cat", 198)] := by
  rw [rankedOf, votesOf_cat]
  exact List.perm_singleton.mp (List.mergeSort_perm _ _)

theorem bestLabelOf_cat : bestLabelOf catDs catVec catStrokes = "cat" := by
  rw [bestLabelOf, rankedOf_cat]
  rfl

theorem bestScoreOf_cat : bestScoreOf catDs catVec catStrokes = 198 := by
  rw [bestScoreOf, rankedOf_cat]
  rfl

theorem secondScoreOf_cat : secondScoreOf catDs catVec catStrokes = 0 := by
  rw [secondScoreOf, rankedOf_cat]
  rfl

theorem voteTotalOf_cat : voteTotalOf catDs catVec catStrokes = 198 := by
  rw [voteTotalOf, rankedOf_cat]
  simp

theorem marginOf_cat : marginOf catDs catVec catStrokes = 198 := by
  rw [marginOf, bestScoreOf_cat, secondScoreOf_cat]
  norm_num

theorem catDs_ne_nil : catDs ≠ [] := by
  rw [catDs]
  simp

theorem certaintyOf_cat : certaintyOf catDs catVec catStrokes = 1 := by
  rw [certaintyOf_eq catDs catVec catStrokes catDs_ne_nil, bestScoreOf_cat, voteTotalOf_cat]
  norm_num

theorem prototypeWeightOf_cat : prototypeWeightOf catDs = 1 / 10 := by
  rw [prototypeWeightOf, buildPrototypes_cat]
  norm_num [min_def]

theorem confOf_cat : confOf catDs catVec catStrokes = 99 := by
  rw [confOf, certaintyOf_cat, marginOf_cat, prototypeWeightOf_cat]
  have harg : ((1 : ℝ) * 0.65 + 198 * 0.25 + 1 / 10 * 0.1) * 100 = 5016 := by
    norm_num
  rw [harg]
  have h5016 : jsRound (5016 : ℝ) = 5016 := by
    rw [jsRound]
    exact Int.floor_eq_iff.mpr ⟨by norm_num, by norm_num⟩
  rw [h5016]
  decide

theorem not_lowConfidence_cat : ¬ lowConfidenceOf catDs catVec catStrokes := by
  rw [lowConfidenceOf, confOf_cat, marginOf_cat]
  push_neg
  exact ⟨by decide, by norm_num⟩

/-- C7: for the dataset of ten identical "cat" samples at the fixed ink
vector `catVec` and a meaningful query attempt whose grid equals `catVec`
exactly, the classifier answers "cat" with `lowConfidence` false and
confidence at least 60. -/
theorem singleLabel_exactMatch_spec :
    (guessDrawingResult catDs catVec catStrokes).guess = "cat" ∧
    ¬ lowConfidenceOf catDs catVec catStrokes ∧
    60 ≤ (guessDrawingResult catDs catVec catStrokes).confidence := by
  rw [guessDrawingResult_main catDs catVec catStrokes cat_meaningful catDs_ne_nil]
  refine ⟨?_, not_lowConfidence_cat, ?_⟩
  · show (if lowConfidenceOf catDs catVec catStrokes then "unknown"
        else bestLabelOf catDs catVec catStrokes) = "cat"
    rw [if_neg not_lowConfidence_cat, bestLabelOf_cat]
  · show (60 : ℤ) ≤ confOf catDs catVec catStrokes
    rw [confOf_cat]
    decide

theorem lowConfidence_spec_witness :
    (lowConfidenceOf catDs catVec catStrokes ↔
      (guessDrawingResult catDs catVec catStrokes).confidence < 60 ∨
        marginOf catDs catVec catStrokes < 0.12) ∧
    (lowConfidenceOf catDs catVec catStrokes →
      (guessDrawingResult catDs catVec catStrokes).guess = "unknown") :=
  lowConfidence_spec catDs catVec catStrokes cat_meaningful catDs_ne_nil

theorem confidence_formula_spec_witness :
    (guessDrawingResult catDs catVec catStrokes).confidence =
      max 1 (min 99 (jsRound (100 * clampR
        (bestScoreOf catDs catVec catStrokes / voteTotalOf catDs catVec catStrokes * 0.65 +
          marginOf catDs catVec catStrokes * 0.25 +
          min (((catDs.map Sample.label).dedup.length : ℝ) / 10) 1 * 0.1)
        0.01 0.99))) :=
  confidence_formula_spec catDs catVec catStrokes cat_meaningful catDs_ne_nil

/-- Folding a list of samples into an existing bucket, the per-label
restriction of the grouping loop of `buildPrototypes`. -/
noncomputable def combineB (b : Bucket) (ds : List Sample) : Bucket :=
  ds.foldl addSample b

theorem combineB_nil (b : Bucket) : combineB b [] = b := rfl

theorem combineB_cons (b : Bucket) (s : Sample) (ds : List Sample) :
    combineB b (s :: ds) = combineB (addSample b s) ds := rfl

theorem addVec_nil_left (a : List ℝ) : addVec [] a = [] := by
  rw [addVec]
  simp

theorem addVec_nil_right (v : List ℝ) : addVec v [] = v := by
  rw [addVec]
  simp

theorem addVec_cons (x y : ℝ) (v a : List ℝ) :
    addVec (x :: v) (y :: a) = (x + y) :: addVec v a := by
  rw [addVec, addVec]
  rw [List.zipWith_cons_cons, List.length_cons, List.drop_succ_cons]
  rfl

theorem addVec_rightComm : ∀ (v a b : List ℝ),
    addVec (addVec v a) b = addVec (addVec v b) a := by
  intro v
  induction v with
  | nil =>
    intro a b
    simp [addVec_nil_left]
  | cons x vt ih =>
    intro a b
    cases a with
    | nil => rw [addVec_nil_right, addVec_nil_right]
    | cons y at2 =>
      cases b with
      | nil => rw [addVec_nil_right, addVec_nil_right]
      | cons z bt =>
        rw [addVec_cons, addVec_cons, addVec_cons, addVec_cons, ih]
        congr 1
        ring

theorem featAdd_rightComm (f g1 g2 : FeatureVec) :
    featAdd (featAdd f g1) g2 = featAdd (featAdd f g2) g1 := by
  cases f
  cases g1
  cases g2
  simp only [featAdd, FeatureVec.mk.injEq]
  refine ⟨?_, ?_, ?_, ?_, ?_, ?_, ?_, ?_, ?_⟩ <;> ring

theorem addSample_rightComm (b : Bucket) (s1 s2 : Sample) :
    addSample (addSample b s1) s2 = addSample (addSample b s2) s1 := by
  rw [addSample, addSample, addSample, addSample]
  rw [addVec_rightComm, featAdd_rightComm]

theorem combineB_perm (b : Bucket) {l1 l2 : List Sample} (h : l1.Perm l2) :
    combineB b l1 = combineB b l2 := by
  haveI : RightCommutative addSample := ⟨addSample_rightComm⟩
  exact List.Perm.foldl_eq h b

theorem find?_byLabelStep (acc : List (String × Bucket)) (s : Sample) (l : String) :
    (byLabelStep acc s).find? (fun p => p.1 == l) =
      if s.label == l then
        match acc.find? (fun p => p.1 == l) with
        | some q => some (q.1, addSample q.2 s)
        | none => some (s.label, addSample emptyBucket s)
      else acc.find? (fun p => p.1 == l) := by
  rw [byLabelStep]
  by_cases hany : acc.any (fun p => p.1 == s.label)
  · rw [if_pos hany, List.find?_map]
    have hcomp : ((fun p : String × Bucket => p.1 == l) ∘
        (fun p => if p.1 == s.label then (p.1, addSample p.2 s) else p)) =
        (fun p : String × Bucket => p.1 == l) := by
      funext p
      by_cases hp : p.1 = s.label <;> simp [hp]
    rw [hcomp]
    by_cases hsl : (s.label == l) = true
    · rw [if_pos hsl]
      cases hfind : acc.find? (fun p => p.1 == l) with
      | some q =>
        have hq : (q.1 == l) = true := by
          have := List.find?_some hfind
          simpa using this
        have hql : q.1 = l := eq_of_beq hq
        have hsl2 : s.label = l := eq_of_beq hsl
        simp [Option.map_some, hql, hsl2]
      | none =>
        exfalso
        rw [List.find?_eq_none] at hfind
        obtain ⟨p, hp, hpb⟩ := List.any_eq_true.mp hany
        have hps : p.1 = s.label := eq_of_beq (by simpa using hpb)
        have hsl2 : s.label = l := eq_of_beq hsl
        exact hfind p hp (beq_iff_eq.mpr (hps.trans hsl2))
    · rw [if_neg hsl]
      cases hfind : acc.find? (fun p => p.1 == l) with
      | some q =>
        have hq : (q.1 == l) = true := by
          have := List.find?_some hfind
          simpa using this
        have hne : q.1 ≠ s.label := by
          intro hc
          apply hsl
          have hql : q.1 = l := eq_of_beq hq
          exact beq_iff_eq.mpr (hc.symm.trans hql)
        simp [Option.map_some, hne]
      | none => simp
  · rw [if_neg hany, List.find?_append]
    by_cases hsl : (s.label == l) = true
    · rw [if_pos hsl]
      have hnone : acc.find? (fun p => p.1 == l) = none := by
        rw [List.find?_eq_none]
        intro p hp hc
        apply hany
        rw [List.any_eq_true]
        have hpl : p.1 = l := eq_of_beq (by simpa using hc)
        have hsl2 : s.label = l := eq_of_beq hsl
        exact ⟨p, hp, beq_iff_eq.mpr (hpl.trans hsl2.symm)⟩
      rw [hnone]
      simp [List.find?_cons, hsl]
    · rw [if_neg hsl]
      have hsingle : List.find? (fun p : String × Bucket => p.1 == l)
          [(s.label, addSample emptyBucket s)] = none := by
        simp [List.find?_cons, hsl]
      rw [hsingle]
      cases hfind : acc.find? (fun p => p.1 == l) <;> simp

theorem find?_foldl_byLabelStep (l : String) :
    ∀ (ds : List Sample) (acc : List (String × Bucket)),
      (List.foldl byLabelStep acc ds).find? (fun p => p.1 == l) =
        (match acc.find? (fun p => p.1 == l) with
          | some q => some (q.1, combineB q.2 (ds.filter (fun s => s.label == l)))
          | none =>
            if ds.filter (fun s => s.label == l) = [] then none
            else some (l, combineB emptyBucket (ds.filter (fun s => s.label == l)))) := by
  intro ds
  induction ds with
  | nil =>
    intro acc
    rw [List.foldl_nil, List.filter_nil]
    cases hfind : acc.find? (fun p => p.1 == l) with
    | some q => simp [combineB_nil]
    | none => simp
  | cons s t ih =>
    intro acc
    rw [List.foldl_cons, ih, find?_byLabelStep, List.filter_cons]
    by_cases hsl : (s.label == l) = true
    · rw [if_pos hsl, if_pos hsl]
      cases hfind : acc.find? (fun p => p.1 == l) with
      | some q =>
        simp only [combineB_cons]
      | none =>
        simp only [combineB_cons]
        rw [if_neg (List.cons_ne_nil _ _)]
        rw [eq_of_beq hsl]
    · rw [if_neg hsl, if_neg hsl]

/-- C9: two datasets holding the same multiset of samples (each of the
invariant 256-entry vector shape and below the eviction cap) produce the
same prototype for every label: same count, same mean vector, same mean
features. -/
theorem buildPrototypes_perm_spec (ds1 ds2 : List Sample) (hperm : ds1.Perm ds2)
    (hvec : ∀ s ∈ ds1, s.vector.length = 256) (hcap : ds1.length ≤ 2000) :
    ∀ l : String,
      (buildPrototypes ds1).find? (fun p => p.label == l) =
        (buildPrototypes ds2).find? (fun p => p.label == l) := by
  intro l
  have hmap : ∀ ds : List Sample,
      (buildPrototypes ds).find? (fun p => p.label == l) =
        ((byLabelFold ds).find? (fun p => p.1 == l)).map mkProto := by
    intro ds
    rw [buildPrototypes, List.find?_map]
    rfl
  rw [hmap ds1, hmap ds2]
  rw [byLabelFold, byLabelFold, find?_foldl_byLabelStep, find?_foldl_byLabelStep]
  rw [List.find?_nil]
  have hfp : (ds1.filter (fun s => s.label == l)).Perm
      (ds2.filter (fun s => s.label == l)) :=
    List.Perm.filter _ hperm
  by_cases h1 : ds1.filter (fun s => s.label == l) = []
  · have h2 : ds2.filter (fun s => s.label == l) = [] := by
      rw [← List.perm_nil]
      rw [h1] at hfp
      exact hfp.symm
    rw [h1, h2]
  · have h2 : ds2.filter (fun s => s.label == l) ≠ [] := by
      intro hc
      rw [hc, List.perm_nil] at hfp
      exact h1 hfp
    simp only []
    rw [if_neg h1, if_neg h2, combineB_perm emptyBucket hfp]

/-- A first sample for the order-independence witness. -/
noncomputable def permSample1 : Sample :=
  ⟨"cat", List.replicate 256 1, none, 0⟩

/-- A second sample for the order-independence witness. -/
noncomputable def permSample2 : Sample :=
  ⟨"dog", List.replicate 256 (1 / 2), none, 1⟩

theorem buildPrototypes_perm_spec_witness :
    (buildPrototypes [permSample1, permSample2]).find? (fun p => p.label == "cat") =
      (buildPrototypes [permSample2, permSample1]).find? (fun p => p.label == "cat") := by
  refine buildPrototypes_perm_spec [permSample1, permSample2] [permSample2, permSample1]
    (List.Perm.swap permSample2 permSample1 []) ?_ (by simp) "cat"
  intro s hs
  rw [List.mem_cons, List.mem_singleton] at hs
  rcases hs with rfl | rfl
  · rw [permSample1]
    exact List.length_replicate 256 _
  · rw [permSample2]
    exact List.length_replicate 256 _


